import Mathlib

/-!
Shallow embedding of the FulcrumBot discord bot (`bot.py`).

Embedded pieces, each translated from the source:
* the session gate and commit in `_spawn_server_session` (`spawnServerSession`),
  plus a small cooperative-interleaving semantics for two concurrent
  invocations of it (`stepTask`, `raceStep`, `runSched`);
* the daemon readiness polling loop of `_dockerps` (`pollLoopF`, `dockerpsPoll`);
* the container-listing parse of `_parse_dockerps` with the regex
  `(?:NAMES\n)(\d+-mc-\d+\n*)` (`psMatchAt`, `findallPS`, `parseDockerps`);
* the ephemeral volume slot computation of `_run_docker_target`
  (`runDockerTmpSlot`);
* the user-argument validator `_validate_usr_args` with its helpers
  (`argIsFloatOrInt`, `getFloatFromArg`, the regex `_USR_ARGS_REG` as
  `matchUsrArgsReg`, `vgo`, `validateUsrArgs`).

Python floats are modelled as exact rationals (no claim here depends on
IEEE rounding); Python exceptions are modelled as an explicit
`VResult.raised` constructor or an `Option` `none`.
-/

namespace FulcrumBot

/-! ### Character and string helpers (ASCII semantics of the Python predicates) -/

def isDigitCh (c : Char) : Bool := decide (48 ≤ c.toNat ∧ c.toNat ≤ 57)

def isAsciiLetter (c : Char) : Bool :=
  decide ((65 ≤ c.toNat ∧ c.toNat ≤ 90) ∨ (97 ≤ c.toNat ∧ c.toNat ≤ 122))

def isLowerAZ (c : Char) : Bool := decide (97 ≤ c.toNat ∧ c.toNat ≤ 122)

def isAsciiCh (c : Char) : Bool := decide (c.toNat ≤ 127)

def isSpaceCh (c : Char) : Bool := c == ' ' || c == '\n' || c == '\t' || c == '\r'

def isDigitDot (c : Char) : Bool := isDigitCh c || c == '.'

def digitsToNat (ds : List Char) : Nat := ds.foldl (fun n c => 10 * n + (c.toNat - 48)) 0

def strLen (s : String) : Nat := s.data.length

def strDrop (s : String) (n : Nat) : String := String.mk (s.data.drop n)

def sumLens (l : List String) : Nat := (l.map strLen).sum

def joinSpace (args : List String) : String :=
  String.mk (List.intercalate [' '] (args.map String.data))

/-- `str.strip()` on the whitespace kinds occurring in the listings. -/
def pyStrip (s : String) : String :=
  String.mk (((s.data.dropWhile isSpaceCh).reverse.dropWhile isSpaceCh).reverse)

/-- Drop a literal char sequence from the front, or fail. -/
def dropLit : List Char → List Char → Option (List Char)
  | [], cs => some cs
  | _ :: _, [] => none
  | p :: ps, c :: cs => if c = p then dropLit ps cs else none

/-! ### Session gate (`_spawn_server_session`, bot.py lines 246-256)

The gate is the condition
`if not PARSED.mock and ctx.message.created_at.timestamp() - self._session.start < threshold`:
on that branch the code sets `active = False` and returns (rejection); otherwise it
runs `_run_docker_target` (a no-op under `--mock`) and then commits
`active = True; start = now`. -/

structure Session where
  active : Bool
  start : ℚ
deriving DecidableEq

structure SpawnResult where
  session : Session
  admitted : Bool
  launched : Bool
deriving DecidableEq

/-- One whole invocation of `_spawn_server_session`, run without interleaving.
`launched` records whether `_run_docker_target` reached its non-mock body. -/
def spawnServerSession (mock : Bool) (s : Session) (now th : ℚ) : SpawnResult :=
  if mock = false ∧ now - s.start < th then
    ⟨⟨false, s.start⟩, false, false⟩
  else
    ⟨⟨true, now⟩, true, !mock⟩

/-! ### Two interleaved invocations of the gate

`_spawn_server_session` suspends between the gate check (line 247) and the
commit (lines 255-256): the intervening `await self._run_docker_target(opts)`
can yield to the cooperative scheduler (e.g. at the daemon poller's
`asyncio.sleep`).  Each task is therefore two atomic blocks: the check
(which on rejection also writes `active = False`) and the commit. -/

structure TaskSt where
  pc : Nat
  now : ℚ
  committed : Bool
deriving DecidableEq

structure RaceSt where
  session : Session
  t0 : TaskSt
  t1 : TaskSt
deriving DecidableEq

/-- One atomic block of a `_spawn_server_session` invocation (non-mock). -/
def stepTask (th : ℚ) (s : Session) (t : TaskSt) : Session × TaskSt :=
  if t.pc = 0 then
    if t.now - s.start < th then (⟨false, s.start⟩, ⟨2, t.now, false⟩)
    else (s, ⟨1, t.now, false⟩)
  else if t.pc = 1 then (⟨true, t.now⟩, ⟨2, t.now, true⟩)
  else (s, t)

def raceStep (th : ℚ) (st : RaceSt) (pick : Bool) : RaceSt :=
  if pick then
    let r := stepTask th st.session st.t1
    ⟨r.1, st.t0, r.2⟩
  else
    let r := stepTask th st.session st.t0
    ⟨r.1, r.2, st.t1⟩

/-- Run a cooperative schedule: each entry picks which task runs its next
atomic block. -/
def runSched (th : ℚ) (sched : List Bool) (st : RaceSt) : RaceSt :=
  sched.foldl (raceStep th) st

/-- Initial state: fresh session (`start = 0`), two requests arriving at
timestamps 100 and 101 against threshold 100. -/
def raceInitial : RaceSt := ⟨⟨false, 0⟩, ⟨0, 100, false⟩, ⟨0, 101, false⟩⟩

/-! ### Daemon readiness poller (`_dockerps`, bot.py lines 192-204)

The code runs the probe once before the loop, then
`while check.returncode != 0 and n_checks < MAXCHECKS: sleep; check = run(cmd); n_checks += 1`,
and raises when `n_checks == MAXCHECKS` afterwards.  `probe k` is the
success of the `k`-th probe execution (0-based); `probes`/`sleeps` count
executions of the probe command and of `asyncio.sleep`. -/

structure PollResult where
  probes : Nat
  sleeps : Nat
  nChecks : Nat
  raised : Bool
deriving DecidableEq

/-- The `while` loop, with `fuel` bounding the remaining iterations.
`dockerpsPoll` supplies `fuel = maxChecks`, which is exact: the loop body
runs at most `maxChecks - nChecks` times. -/
def pollLoopF (probe : Nat → Bool) (maxChecks : Nat) :
    Nat → Nat → Bool → Nat → Nat → PollResult
  | 0, n, check, probes, sleeps =>
    if check = false ∧ n < maxChecks then ⟨probes, sleeps, n, true⟩
    else ⟨probes, sleeps, n, decide (n = maxChecks)⟩
  | fuel + 1, n, check, probes, sleeps =>
    if check = false ∧ n < maxChecks then
      pollLoopF probe maxChecks fuel (n + 1) (probe probes) (probes + 1) (sleeps + 1)
    else ⟨probes, sleeps, n, decide (n = maxChecks)⟩

/-- The whole polling path of `_dockerps`: initial `subprocess.run`, loop,
final `n_checks == MAXCHECKS` raise check. -/
def dockerpsPoll (probe : Nat → Bool) (maxChecks : Nat) : PollResult :=
  pollLoopF probe maxChecks maxChecks 0 (probe 0) 1 0

/-! ### Container locator (`_parse_dockerps`, bot.py lines 209-217)

`re.findall(r'(?:NAMES\n)(\d+-mc-\d+\n*)', raw)` followed by a max-subversion
scan over the captured group-1 strings (subversion from
`re.search(r'(\d+)$', v)` on the unstripped string, ties resolved towards the
later index by Python tuple `max`), returning `valid_vers[best].strip()`. -/

/-- Match the pattern `NAMES\n(\d+-mc-\d+\n*)` at the head of `cs`:
returns the captured group and the remaining input. -/
def psMatchAt (cs : List Char) : Option (List Char × List Char) :=
  match dropLit ("NAMES\n".data) cs with
  | none => none
  | some r1 =>
    let d1 := r1.takeWhile isDigitCh
    let r2 := r1.dropWhile isDigitCh
    if d1.isEmpty then none else
    match dropLit ("-mc-".data) r2 with
    | none => none
    | some r3 =>
      let d2 := r3.takeWhile isDigitCh
      let r4 := r3.dropWhile isDigitCh
      if d2.isEmpty then none else
      some (d1 ++ "-mc-".data ++ d2 ++ r4.takeWhile (fun c => c == '\n'),
        r4.dropWhile (fun c => c == '\n'))

/-- `re.findall` left-to-right non-overlapping scan; every match consumes at
least the literal `NAMES\n`, so `fuel = length + 1` is always enough. -/
def findallPSAux (fuel : Nat) (cs : List Char) : List (List Char) :=
  match fuel with
  | 0 => []
  | f + 1 =>
    match cs with
    | [] => []
    | c :: rest =>
      match psMatchAt (c :: rest) with
      | some (g, after) => g :: findallPSAux f after
      | none => findallPSAux f rest

def findallPS (raw : String) : List String :=
  (findallPSAux (raw.data.length + 1) raw.data).map String.mk

/-- `re.search(r'(\d+)$', v)` then `int(...)`: a digit run at the end of the
string, or just before one final newline; `none` models the `AttributeError`
from `.group(0)` on a failed search. -/
def searchContainerSubver (s : String) : Option Nat :=
  let cs :=
    match s.data.getLast? with
    | some c => if c = '\n' then s.data.dropLast else s.data
    | none => s.data
  let ds := (cs.reverse.takeWhile isDigitCh).reverse
  if ds.isEmpty then none else some (digitsToNat ds)

/-- Python tuple `max` on `(subver, index)` pairs: the later argument wins
only when strictly greater (lexicographically). -/
def pairMax (p q : Nat × Nat) : Nat × Nat :=
  if p.1 < q.1 ∨ (p.1 = q.1 ∧ p.2 < q.2) then q else p

def bestSubverIdx : List Nat → Option (Nat × Nat) → Nat → Option (Nat × Nat)
  | [], best, _ => best
  | v :: rest, best, i =>
    let best2 := match best with
      | none => some (v, i)
      | some b => some (pairMax b (v, i))
    bestSubverIdx rest best2 (i + 1)

def optMapM : List String → (String → Option Nat) → Option (List Nat)
  | [], _ => some []
  | a :: rest, f =>
    match f a with
    | none => none
    | some n =>
      match optMapM rest f with
      | none => none
      | some ns => some (n :: ns)

/-- `_parse_dockerps` on the raw listing text.  `none` covers the
exceptions of the source (subversion search failing, or indexing the list
with `None` when no name matched). -/
def parseDockerps (raw : String) : Option String :=
  let vers := findallPS raw
  match optMapM vers searchContainerSubver with
  | none => none
  | some subs =>
    match bestSubverIdx subs none 0 with
    | none => none
    | some b => (vers.map pyStrip).get? b.2

/-! ### Volume provisioner (`_run_docker_target`, bot.py lines 226-231)

`max_dir = float('-infinity') if list_dir else 0`, then for every filename
`max_dir = max(max_dir, int(re.search(r'(\d+)$', fn).group(0)))`, and the new
mount is `tmp-mc-{max_dir + 1}`.  No filename is filtered by the
`tmp-mc-<n>` shape; a filename with no trailing digits raises
(`.group` on `None`), modelled as `none`. -/

def runDockerTmpSlot (listDir : List String) : Option String :=
  if listDir.isEmpty then some ("tmp-mc-" ++ Nat.repr (0 + 1))
  else
    match optMapM listDir searchContainerSubver with
    | none => none
    | some ns => some ("tmp-mc-" ++ Nat.repr (ns.foldl Nat.max 0 + 1))

/-- Modelled from the spec (§4.5): parse the trailing integer of every name
matching `tmp-mc-<integer>`; next slot is `(max of those, or 0 if none) + 1`.
Used only to compare the spec's provisioning rule with the source's. -/
def tmpMcTrailing (s : String) : Option Nat :=
  match dropLit ("tmp-mc-".data) s.data with
  | none => none
  | some ds => if !ds.isEmpty && ds.all isDigitCh then some (digitsToNat ds) else none

/-- Modelled from the spec (§4.5): the slot name `provisionNext` describes. -/
def specProvisionNext (names : List String) : String :=
  "tmp-mc-" ++ Nat.repr ((names.filterMap tmpMcTrailing).foldl Nat.max 0 + 1)

/-! ### Argument validator (`_validate_usr_args`, bot.py lines 287-387)

Schemas are pydantic models: `model_fields` maps field NAMES (`alloc`,
`tmp`) to their annotation, default and alias.  `isinstance(default, int)`
is modelled by `default : Option Nat` (the only int default in the source is
`tmp`'s bit position 0).  Parsed values are Python floats or strings
(`Val`); `Val.pytype` is `type(parsed_arg)` and `FType` equality is the
`annotation is type(...)` identity test. -/

inductive FType where
  | float
  | bool
  | int
  | str
deriving DecidableEq

inductive Val where
  | num (q : ℚ)
  | str (s : String)
deriving DecidableEq

def Val.pytype : Val → FType
  | .num _ => .float
  | .str _ => .str

structure FieldInfo where
  annot : FType
  dflt : Option Nat
  fAlias : String
deriving DecidableEq

abbrev Schema := List (String × FieldInfo)

def lookupField : Schema → String → Option FieldInfo
  | [], _ => none
  | (k, fi) :: rest, k2 => if k = k2 then some fi else lookupField rest k2

/-- `BotHandler.StartArgs`: `alloc: float = Field(alias='-alloc')`,
`tmp: bool = Field(default=0, alias='--tmp')`. -/
def StartArgs : Schema :=
  [("alloc", ⟨FType.float, none, "-alloc"⟩), ("tmp", ⟨FType.bool, some 0, "--tmp"⟩)]

/-- A schema with an integer-typed flag, exercising the validator's
type-identity test on a non-float annotation. -/
def IntSchema : Schema := [("alloc", ⟨FType.int, none, "-alloc"⟩)]

def pyIsdigitL (l : List Char) : Bool := !l.isEmpty && l.all isDigitCh

/-- `str.isalpha()` (tokens reaching it are ASCII, past the charset guard). -/
def pyIsalpha (a : String) : Bool := !a.data.isEmpty && a.data.all isAsciiLetter

/-- `_arg_is_float_or_int`:
`arg.count('-') <= 1 and arg.count('.') <= 1 and arg.replace('.','').replace('-','').isdigit()`. -/
def argIsFloatOrInt (a : String) : Bool :=
  decide (a.data.count '-' ≤ 1) && decide (a.data.count '.' ≤ 1) &&
    pyIsdigitL (a.data.filter (fun c => !(c == '.') && !(c == '-')))

/-- The success condition of Python `float()` on the digit/dot strings the
classifier can feed it: only digits and at most one dot, with at least one
digit. -/
def floatGuard (cs : List Char) : Bool :=
  cs.all isDigitDot && decide (cs.count '.' ≤ 1) && cs.any isDigitCh

def floatVal (cs : List Char) : ℚ :=
  let ip := cs.takeWhile (fun c => !(c == '.'))
  let fp := (cs.dropWhile (fun c => !(c == '.'))).drop 1
  (digitsToNat ip : ℚ) + (digitsToNat fp : ℚ) / (10 : ℚ) ^ fp.length

/-- Python `float(...)` restricted to the character set reachable from the
classifier (`none` models the `ValueError` raise, e.g. on `"5-"`). -/
def parseFloatChars (cs : List Char) : Option ℚ :=
  if floatGuard cs then some (floatVal cs) else none

def stripLeadDash (cs : List Char) : List Char :=
  match cs with
  | [] => []
  | c :: r => if c = '-' then r else c :: r

/-- `_get_float_from_arg`: `float(arg[1:]) * -1 if arg.startswith('-') else float(arg)`. -/
def getFloatFromArg (a : String) : Option ℚ :=
  match a.data with
  | [] => parseFloatChars []
  | c :: r => if c = '-' then (parseFloatChars r).map (fun q => -q) else parseFloatChars (c :: r)

/-- Line 331: `_get_float_from_arg(a) if arg_is_float else a`. -/
def parsedArgOf (a : String) : Option Val :=
  if argIsFloatOrInt a then (getFloatFromArg a).map Val.num else some (Val.str a)

def headIsDash (cs : List Char) : Bool :=
  match cs with
  | [] => false
  | c :: _ => decide (c = '-')

/-- One repetition of `((?:[a-z])|(?:-)(?!-))+` at the head of the input:
enough for the regex to accept, since nothing follows the `+`. -/
def flagItemOk : List Char → Bool
  | [] => false
  | c :: rest => isLowerAZ c || (c == '-' && !headIsDash rest)

/-- `[a-z]((?:[a-z])|(?:-)(?!-))+` matched at the head of the input. -/
def flagBody : List Char → Bool
  | [] => false
  | c :: rest => isLowerAZ c && flagItemOk rest

/-- `re.match(_USR_ARGS_REG, a)` with
`_USR_ARGS_REG = ^(?:--|-){1}[a-z]((?:[a-z])|(?:-)(?!-))+`: a PREFIX match,
with the `--` alternative tried before `-`. -/
def matchUsrArgsReg (a : String) : Bool :=
  match a.data with
  | [] => false
  | c :: r =>
    c == '-' && (if headIsDash r then flagBody (r.drop 1) || flagBody r else flagBody r)

def startsDashDash (a : String) : Bool :=
  match a.data with
  | c :: d :: _ => c == '-' && d == '-'
  | _ => false

/-- `_remove_formatting_from_arg`: escape `*`, `~`, `_` with a backslash. -/
def escChar (c : Char) : List Char :=
  if c = '*' || c = '~' || c = '_' then ['\\', c] else [c]

def removeFormattingFromArg (s : String) : String := String.mk ((s.data.map escChar).flatten)

/-- `list.index(x)`: first position, `none` models the `ValueError` raise. -/
def pyIndex : List String → String → Option Nat
  | [], _ => none
  | a :: rest, x => if a = x then some 0 else (pyIndex rest x).map (· + 1)

/-- Python dict assignment: overwrite in place, else append. -/
def dictInsert (kw : List (String × Val)) (k : String) (v : Val) : List (String × Val) :=
  if kw.any (fun p => p.1 == k) then kw.map (fun p => if p.1 = k then (k, v) else p)
  else kw ++ [(k, v)]

def MAX_ARG_WRD_SZ : Nat := 128

inductive VErr where
  | tooLarge (tok : String) (offset : Nat) (line : String)
  | nonAscii (tok : String) (offset : Nat) (line : String)
  | malformed (tok : String) (offset : Nat) (line : String)
  | typeMismatch (flagTok : String) (valTok : String) (expected : FType)
deriving DecidableEq

/-- The observable outcome of `_validate_usr_args`: an exception propagating
out of the call, or the returned `(err, opts, kwargs)` triple (the
positional `stack` is built but not returned by the source). -/
inductive VResult where
  | raised (msg : String)
  | returned (err : Option VErr) (opts : Nat) (kwargs : List (String × Val))
deriving DecidableEq

/-- Lines 370-375: `if a.startswith('--')`, look the name up in
`model_fields`, and `opts |= 1 << default` when the default is an int. -/
def packOpts (sch : Schema) (opts : Nat) (a : String) : Nat :=
  if startsDashDash a then
    match lookupField sch (strDrop a 2) with
    | some fi =>
      match fi.dflt with
      | some d => opts ||| (1 <<< d)
      | none => opts
    | none => opts
  else opts

/-- The `for i, a in enumerate(args)` loop of `_validate_usr_args`
(lines 325-377).  `prev` is `args[i-1]` (`none` at `i = 0`, where the
positional branch is always taken); `start` is the running offset
`sum of len(a) + 1`. -/
def vgo (sch : Schema) (line : String) :
    List String → Option String → Nat → Nat → List Val → List (String × Val) → VResult
  | [], _, _, opts, _, kwargs => .returned none opts kwargs
  | a :: rest, prev, start, opts, stack, kwargs =>
    if argIsFloatOrInt a || pyIsalpha a then
      match parsedArgOf a with
      | none => .raised ("could not convert string to float: " ++ a)
      | some parsed =>
        match prev with
        | none =>
          vgo sch line rest (some a) (start + strLen a + 1) (packOpts sch opts a)
            (stack ++ [parsed]) kwargs
        | some p =>
          if startsDashDash p || pyIsalpha p || argIsFloatOrInt p then
            vgo sch line rest (some a) (start + strLen a + 1) (packOpts sch opts a)
              (stack ++ [parsed]) kwargs
          else
            match lookupField sch (strDrop p 1) with
            | none => .raised ("The supplied arg: " ++ p ++ " was not found")
            | some fi =>
              if fi.annot = Val.pytype parsed then
                vgo sch line rest (some a) (start + strLen a + 1) (packOpts sch opts a)
                  stack (dictInsert kwargs p parsed)
              else
                .returned (some (.typeMismatch p a fi.annot)) opts kwargs
    else if matchUsrArgsReg a then
      vgo sch line rest (some a) (start + strLen a + 1) (packOpts sch opts a) stack kwargs
    else
      .returned (some (.malformed a start line)) opts kwargs

/-- The error return of the two guards: escape the offending token, find its
first position with `list.index` (whose failure raises), and report the
underline offset `sum(len(a) for a in args[:idx]) + 1`. -/
def guardReturn (args : List String) (e0 : String) (mk : String → Nat → String → VErr) : VResult :=
  match pyIndex args (removeFormattingFromArg e0) with
  | none => .raised (removeFormattingFromArg e0 ++ " is not in list")
  | some j =>
    .returned
      (some (mk (removeFormattingFromArg e0) (sumLens (args.take j) + 1) (joinSpace args))) 0 []

/-- `_validate_usr_args(arg_types, *args)`: the size guard (line 298), the
charset guard (line 312), then the token loop. -/
def validateUsrArgs (sch : Schema) (args : List String) : VResult :=
  match args.find? (fun a => decide (MAX_ARG_WRD_SZ < strLen a)) with
  | some e0 => guardReturn args e0 VErr.tooLarge
  | none =>
    match args.find? (fun a => !(a.data.all isAsciiCh)) with
    | some e0 => guardReturn args e0 VErr.nonAscii
    | none => vgo sch (joinSpace args) args none 0 0 [] []

/-! ### Spec-side grammar and option-packing rule

These definitions follow the SPEC's words (§4.1 item 3 and item 5), to
state the validator claims' hypotheses and to compare the option packing
against the source's. -/

/-- Modelled from the spec: a *numeric* token — parseable as an integer or
float, with at most one leading minus sign and at most one decimal point. -/
def specNumeric (a : String) : Bool := floatGuard (stripLeadDash a.data)

/-- Modelled from the spec: the flag pattern, fully matching the token —
one or two leading dashes, a lowercase letter, then lowercase letters or
single (non-repeated) dashes. -/
def itemsOk : List Char → Bool
  | [] => true
  | c :: rest => (isLowerAZ c || c == '-') && !(c == '-' && headIsDash rest) && itemsOk rest

def specFlagPattern (a : String) : Bool :=
  match a.data with
  | [] => false
  | c :: r =>
    c == '-' &&
      (match (if headIsDash r then r.drop 1 else r) with
       | [] => false
       | d :: rest => isLowerAZ d && !rest.isEmpty && itemsOk rest)

/-- Modelled from the spec: the flag/value grammar — numeric, bare-word, or
flag-pattern tokens. -/
def grammarOk (a : String) : Bool := specNumeric a || pyIsalpha a || specFlagPattern a

/-- Modelled from the spec (§4.1 item 5): a double-dash token naming a
boolean schema entry with bit-position `k` contributes exactly bit `k`;
any other token contributes no bits. -/
def specBoolContrib (sch : Schema) (a : String) : Nat :=
  if startsDashDash a then
    match lookupField sch (strDrop a 2) with
    | some fi =>
      match fi.annot, fi.dflt with
      | FType.bool, some k => 1 <<< k
      | _, _ => 0
    | none => 0
  else 0

/-- The outcomes claim C4 allows of a validation run over grammar-conforming
tokens: success, a type-mismatch error citing tokens present in the input,
or the unknown-single-dash-flag exception citing a token present in the
input. -/
def CitedOutcome (toks : List String) (r : VResult) : Prop :=
  (∃ opts kwargs, r = .returned none opts kwargs) ∨
    (∃ p a fi opts kwargs, p ∈ toks ∧ a ∈ toks ∧
      r = .returned (some (.typeMismatch p a fi)) opts kwargs) ∨
    (∃ p, p ∈ toks ∧ r = .raised ("The supplied arg: " ++ p ++ " was not found"))

/-! ### Theorems for the gate, race, poller, locator and provisioner claims -/

/-- Claim C1: for every session record, request timestamp `now` and threshold,
the gate of `_spawn_server_session` admits the start request iff
`now - session.start ≥ threshold`; in particular the boundary
`now - session.start = threshold` is admitted (the source rejects only on the
strict `<`). -/
theorem session_gate_admits_iff_threshold (s : Session) (now th : ℚ) :
    ((spawnServerSession false s now th).admitted = true ↔ th ≤ now - s.start) ∧
      (spawnServerSession false s (s.start + th) th).admitted = true := by
  constructor
  · unfold spawnServerSession
    by_cases h : now - s.start < th
    · rw [if_pos ⟨rfl, h⟩]
      simp only [Bool.false_eq_true, false_iff]
      exact not_le.mpr h
    · rw [if_neg (fun hc => h hc.2)]
      simp only [true_iff]
      exact not_lt.mp h
  · unfold spawnServerSession
    rw [if_neg]
    intro hc
    have e : s.start + th - s.start = th := by ring
    rw [e] at hc
    exact lt_irrefl th hc.2

/-- Counterexample to claim C2: an active session (`active = true`,
`start = 0`) and a rejected request at `now = 0` with threshold 1 leave the
session modified: `_spawn_server_session` sets `active = False` on the
rejection branch (bot.py line 249). -/
theorem rejection_clears_active_flag_cex :
    (spawnServerSession false ⟨true, 0⟩ 0 1).admitted = false ∧
      (spawnServerSession false ⟨true, 0⟩ 0 1).session.active ≠ (Session.mk true 0).active := by
  unfold spawnServerSession
  rw [if_pos ⟨rfl, by norm_num⟩]
  exact ⟨rfl, by decide⟩

/-- Claim C2 (amended): on a rejected start request the session's start
timestamp is unchanged, but its active flag is set to `false` (so the record
is unmodified only when it was already inactive). -/
theorem rejection_preserves_start_sets_inactive (s : Session) (now th : ℚ)
    (h : (spawnServerSession false s now th).admitted = false) :
    (spawnServerSession false s now th).session.start = s.start ∧
      (spawnServerSession false s now th).session.active = false := by
  unfold spawnServerSession at h ⊢
  by_cases hc : now - s.start < th
  · rw [if_pos ⟨rfl, hc⟩]
    exact ⟨rfl, rfl⟩
  · rw [if_neg (fun k => hc k.2)] at h
    simp at h

theorem rejection_preserves_start_sets_inactive_witness :
    (spawnServerSession false ⟨true, 0⟩ 0 1).session.start = (Session.mk true 0).start ∧
      (spawnServerSession false ⟨true, 0⟩ 0 1).session.active = false :=
  rejection_preserves_start_sets_inactive ⟨true, 0⟩ 0 1
    (by unfold spawnServerSession; rw [if_pos ⟨rfl, by norm_num⟩])

/-- Claim C3: the gate check and the start-timestamp commit are NOT one
indivisible unit.  Two invocations against the same session (start 0,
threshold 100, request times 100 and 101) interleaved at the suspension
point between the check (line 247) and the commit (lines 255-256) both
observe the cooldown as expired and both commit
(schedule check0, check1, commit0, commit1), whereas under the serialized
schedule check0, commit0, check1 the second invocation is rejected. -/
theorem interleaved_double_admit :
    (runSched 100 [false, true, false, true] raceInitial).t0.committed = true ∧
      (runSched 100 [false, true, false, true] raceInitial).t1.committed = true ∧
      (runSched 100 [false, false, true, true] raceInitial).t1.committed = false := by
  norm_num [runSched, raceStep, stepTask, raceInitial]

/-- Counterexample to claim C5: with `maxChecks = 3` and a probe failing on
every execution, `_dockerps` executes the probe 4 times (the initial
`subprocess.run` before the loop plus 3 loop iterations), not 3, before
raising. -/
theorem poller_probe_count_cex :
    (dockerpsPoll (fun _ => false) 3).probes = 4 ∧ (4 : Nat) ≠ 3 ∧
      (dockerpsPoll (fun _ => false) 3).raised = true := by
  decide

theorem pollLoopF_allfail (m : Nat) :
    ∀ (fuel n p s : Nat), n + fuel = m →
      pollLoopF (fun _ => false) m fuel n false p s = ⟨p + fuel, s + fuel, m, true⟩ := by
  intro fuel
  induction fuel with
  | zero =>
    intro n p s h
    unfold pollLoopF
    rw [if_neg (fun hc => absurd hc.2 (by omega))]
    have hn : n = m := by omega
    subst hn
    simp
  | succ f ih =>
    intro n p s h
    unfold pollLoopF
    rw [if_pos ⟨rfl, by omega⟩]
    have := ih (n + 1) (p + 1) (s + 1) (by omega)
    rw [this]
    have e1 : p + 1 + f = p + (f + 1) := by omega
    have e2 : s + 1 + f = s + (f + 1) := by omega
    rw [e1, e2]

/-- Claim C5 (amended): with an always-failing probe and any `maxChecks`,
the poller executes the probe exactly `maxChecks + 1` times (one initial
check before the loop plus `maxChecks` polls), sleeping the poll interval
exactly `maxChecks` times between attempts, and then fails by raising. -/
theorem poller_exhaustion_probe_count (m : Nat) :
    dockerpsPoll (fun _ => false) m = ⟨m + 1, m, m, true⟩ := by
  show pollLoopF (fun _ => false) m m 0 false 1 0 = _
  rw [pollLoopF_allfail m m 0 1 0 (by omega)]
  have e1 : 1 + m = m + 1 := by omega
  have e2 : 0 + m = m := by omega
  rw [e1, e2]

/-- Claim C6 (the code slip): over the listing
`NAMES\n1193-mc-2\n1193-mc-10\n1193-mc-3\n` the `findall` regex
`(?:NAMES\n)(\d+-mc-\d+\n*)` requires the literal `NAMES\n` immediately
before every match, so only the first row after the header is extracted and
`_parse_dockerps` returns `1193-mc-2`, not the maximal `1193-mc-10` its own
max-subversion loop is written to select. -/
theorem container_locator_first_line_only :
    findallPS "NAMES\n1193-mc-2\n1193-mc-10\n1193-mc-3\n" = ["1193-mc-2\n"] ∧
      parseDockerps "NAMES\n1193-mc-2\n1193-mc-10\n1193-mc-3\n" = some "1193-mc-2" ∧
      some "1193-mc-2" ≠ some "1193-mc-10" := by
  constructor
  · decide
  constructor
  · decide
  · decide

/-- Counterexample to claim C7: over the slot set `{other-9}` the code takes
the trailing integer of every name (no `tmp-mc-` filter) and yields
`tmp-mc-10`, while the claimed rule (max over names matching
`tmp-mc-<integer>`, or 0 if none, plus 1) yields `tmp-mc-1`. -/
theorem provisioner_ignores_slot_pattern_cex :
    runDockerTmpSlot ["other-9"] = some "tmp-mc-10" ∧
      specProvisionNext ["other-9"] = "tmp-mc-1" ∧
      runDockerTmpSlot ["other-9"] ≠ some (specProvisionNext ["other-9"]) := by
  constructor
  · decide
  constructor
  · decide
  · decide

/-- Claim C7 (amended): the provisioner computes the next slot as
`(max of the trailing integers of ALL existing names, or 0 if the directory
is empty) + 1`, never filling gaps and never filtering by the `tmp-mc-`
shape; a name without a trailing integer makes it fail.  Over
`{tmp-mc-1, tmp-mc-2, tmp-mc-4}` it yields `tmp-mc-5` and over `{}` it
yields `tmp-mc-1`, as claimed. -/
theorem provisioner_trailing_int_max :
    runDockerTmpSlot ["tmp-mc-1", "tmp-mc-2", "tmp-mc-4"] = some "tmp-mc-5" ∧
      runDockerTmpSlot [] = some "tmp-mc-1" ∧
      runDockerTmpSlot ["other-9"] = some "tmp-mc-10" ∧
      runDockerTmpSlot ["README"] = none := by
  refine ⟨by decide, by decide, by decide, by decide⟩

/-- Claim C10: under `--mock` every start request is admitted regardless of
the elapsed time, `_run_docker_target` launches nothing, and the session is
still overwritten: `active = true`, `start = now`. -/
theorem mock_mode_bypasses_gate_and_launch (s : Session) (now th : ℚ) :
    spawnServerSession true s now th = ⟨⟨true, now⟩, true, false⟩ := by
  unfold spawnServerSession
  rw [if_neg (fun k => by exact absurd k.1 (by decide))]
  rfl

/-! ### Helper lemmas for the validator claims -/

theorem letter_not_digit (c : Char) (h : isAsciiLetter c = true) : isDigitCh c = false := by
  simp only [isAsciiLetter, decide_eq_true_eq] at h
  simp only [isDigitCh, decide_eq_false_iff_not]
  omega

theorem letter_not_dot (c : Char) (h : isAsciiLetter c = true) : (c == '.') = false := by
  by_cases hc : c = '.'
  · subst hc
    exact absurd h (by decide)
  · exact beq_eq_false_iff_ne.mpr hc

theorem letter_not_dash (c : Char) (h : isAsciiLetter c = true) : (c == '-') = false := by
  by_cases hc : c = '-'
  · subst hc
    exact absurd h (by decide)
  · exact beq_eq_false_iff_ne.mpr hc

theorem lower_letter (c : Char) (h : isLowerAZ c = true) : isAsciiLetter c = true := by
  simp only [isLowerAZ, decide_eq_true_eq] at h
  simp only [isAsciiLetter, decide_eq_true_eq]
  omega

theorem digit_not_dot (c : Char) (h : isDigitCh c = true) : (c == '.') = false := by
  by_cases hc : c = '.'
  · subst hc
    exact absurd h (by decide)
  · exact beq_eq_false_iff_ne.mpr hc

theorem digit_not_dash (c : Char) (h : isDigitCh c = true) : (c == '-') = false := by
  by_cases hc : c = '-'
  · subst hc
    exact absurd h (by decide)
  · exact beq_eq_false_iff_ne.mpr hc

/-- On a digits/dots-only list: no dash occurs, and the validator's filter
(drop dots and dashes) leaves a nonempty all-digit list. -/
theorem digitdot_parts (l : List Char) (hall : l.all isDigitDot = true)
    (hany : l.any isDigitCh = true) :
    l.count '-' = 0 ∧
      (l.filter (fun c => !(c == '.') && !(c == '-'))).all isDigitCh = true ∧
      (l.filter (fun c => !(c == '.') && !(c == '-'))).isEmpty = false := by
  refine ⟨?_, ?_, ?_⟩
  · rw [List.count_eq_zero]
    intro hmem
    exact absurd (List.all_eq_true.mp hall _ hmem) (by decide)
  · rw [List.all_eq_true]
    intro x hx
    rw [List.mem_filter] at hx
    have hdd := List.all_eq_true.mp hall _ hx.1
    rw [isDigitDot, Bool.or_eq_true] at hdd
    rcases hdd with hd | hdot
    · exact hd
    · rw [Bool.and_eq_true] at hx
      obtain ⟨_, hnd, _⟩ := hx
      rw [hdot] at hnd
      exact absurd hnd (by decide)
  · obtain ⟨d, hdmem, hdig⟩ := List.any_eq_true.mp hany
    have hdf : d ∈ l.filter (fun c => !(c == '.') && !(c == '-')) := by
      rw [List.mem_filter]
      refine ⟨hdmem, ?_⟩
      rw [Bool.and_eq_true, digit_not_dot d hdig, digit_not_dash d hdig]
      exact ⟨rfl, rfl⟩
    cases hf : l.filter (fun c => !(c == '.') && !(c == '-')) with
    | nil =>
      rw [hf] at hdf
      exact absurd hdf (List.not_mem_nil d)
    | cons y ys => rfl

/-- A spec-numeric token passes the code's classifier `_arg_is_float_or_int`. -/
theorem specNumeric_isF (a : String) (h : specNumeric a = true) : argIsFloatOrInt a = true := by
  unfold specNumeric floatGuard at h
  rw [Bool.and_eq_true, Bool.and_eq_true] at h
  obtain ⟨⟨hall, hcnt⟩, hany⟩ := h
  rw [decide_eq_true_eq] at hcnt
  unfold argIsFloatOrInt pyIsdigitL
  cases hcs : a.data with
  | nil =>
    rw [hcs] at hany
    simp [stripLeadDash] at hany
  | cons c r =>
    rw [hcs] at hall hcnt hany
    by_cases hc : c = '-'
    · simp only [stripLeadDash, if_pos hc] at hall hcnt hany
      obtain ⟨hd0, hfa, hfe⟩ := digitdot_parts r hall hany
      subst hc
      rw [Bool.and_eq_true, Bool.and_eq_true]
      have hfilter :
          ('-' :: r).filter (fun c => !(c == '.') && !(c == '-')) =
            r.filter (fun c => !(c == '.') && !(c == '-')) := by
        rw [List.filter_cons_of_neg]
        decide
      refine ⟨⟨?_, ?_⟩, ?_⟩
      · rw [decide_eq_true_eq, List.count_cons_self, hd0]
      · rw [decide_eq_true_eq, List.count_cons_of_ne (by decide)]
        exact hcnt
      · rw [Bool.and_eq_true, hfilter, hfa, hfe]
        exact ⟨rfl, rfl⟩
    · simp only [stripLeadDash, if_neg hc] at hall hcnt hany
      obtain ⟨hd0, hfa, hfe⟩ := digitdot_parts (c :: r) hall hany
      rw [Bool.and_eq_true, Bool.and_eq_true]
      refine ⟨⟨?_, ?_⟩, ?_⟩
      · rw [decide_eq_true_eq, hd0]
        omega
      · rw [decide_eq_true_eq]
        exact hcnt
      · rw [Bool.and_eq_true, hfa, hfe]
        exact ⟨rfl, rfl⟩

/-- A spec-numeric token is accepted by `_get_float_from_arg` (no raise). -/
theorem specNumeric_getFloat (a : String) (h : specNumeric a = true) :
    ∃ q, getFloatFromArg a = some q := by
  unfold specNumeric at h
  unfold getFloatFromArg
  cases hcs : a.data with
  | nil =>
    rw [hcs] at h
    simp [stripLeadDash, floatGuard] at h
  | cons c r =>
    rw [hcs] at h
    by_cases hc : c = '-'
    · simp only [stripLeadDash, if_pos hc] at h
      dsimp only
      rw [if_pos hc]
      unfold parseFloatChars
      rw [if_pos h]
      exact ⟨-floatVal r, rfl⟩
    · simp only [stripLeadDash, if_neg hc] at h
      dsimp only
      rw [if_neg hc]
      unfold parseFloatChars
      rw [if_pos h]
      exact ⟨floatVal (c :: r), rfl⟩

/-- A token containing a char that survives the dot/dash filter but is not a
digit fails `_arg_is_float_or_int`. -/
theorem isF_false_of_mem (a : String) (c : Char) (hmem : c ∈ a.data)
    (hdot : (c == '.') = false) (hdash : (c == '-') = false)
    (hdig : isDigitCh c = false) : argIsFloatOrInt a = false := by
  have hcf : c ∈ a.data.filter (fun x => !(x == '.') && !(x == '-')) := by
    rw [List.mem_filter]
    refine ⟨hmem, ?_⟩
    rw [Bool.and_eq_true, hdot, hdash]
    exact ⟨rfl, rfl⟩
  have hAllF : (a.data.filter (fun x => !(x == '.') && !(x == '-'))).all isDigitCh = false := by
    rw [Bool.eq_false_iff]
    intro hta
    have := List.all_eq_true.mp hta c hcf
    rw [hdig] at this
    exact Bool.false_ne_true this
  unfold argIsFloatOrInt pyIsdigitL
  rw [hAllF]
  simp

/-- A bare word (all alphabetic) fails `_arg_is_float_or_int`. -/
theorem pyIsalpha_not_isF (a : String) (h : pyIsalpha a = true) : argIsFloatOrInt a = false := by
  unfold pyIsalpha at h
  rw [Bool.and_eq_true] at h
  obtain ⟨hne, hall⟩ := h
  cases hcs : a.data with
  | nil =>
    rw [hcs] at hne
    simp at hne
  | cons c r =>
    rw [hcs] at hall
    have hc : isAsciiLetter c = true := List.all_eq_true.mp hall c (by simp)
    refine isF_false_of_mem a c (by rw [hcs]; simp) ?_ ?_ ?_
    · exact letter_not_dot c hc
    · exact letter_not_dash c hc
    · exact letter_not_digit c hc

/-- A spec flag-pattern token fails `_arg_is_float_or_int` (it contains a
lowercase letter). -/
theorem specFlag_not_isF (a : String) (h : specFlagPattern a = true) :
    argIsFloatOrInt a = false := by
  unfold specFlagPattern at h
  cases hcs : a.data with
  | nil =>
    rw [hcs] at h
    simp at h
  | cons c r =>
    rw [hcs] at h
    rw [Bool.and_eq_true] at h
    obtain ⟨_, hbody⟩ := h
    by_cases hr : headIsDash r = true
    · rw [if_pos hr] at hbody
      cases hrr : r with
      | nil =>
        rw [hrr] at hr
        exact absurd hr (by decide)
      | cons e r2 =>
        rw [hrr] at hbody
        cases hr2 : r2 with
        | nil =>
          rw [hr2] at hbody
          simp at hbody
        | cons d rest =>
          rw [hr2] at hbody
          simp only [List.drop_succ_cons, List.drop_zero] at hbody
          rw [Bool.and_eq_true, Bool.and_eq_true] at hbody
          obtain ⟨⟨hd, _⟩, _⟩ := hbody
          have hletter := lower_letter d hd
          refine isF_false_of_mem a d ?_ ?_ ?_ ?_
          · rw [hcs, hrr, hr2]
            simp
          · exact letter_not_dot d hletter
          · exact letter_not_dash d hletter
          · exact letter_not_digit d hletter
    · rw [if_neg hr] at hbody
      cases hrr : r with
      | nil =>
        rw [hrr] at hbody
        simp at hbody
      | cons d rest =>
        rw [hrr] at hbody
        rw [Bool.and_eq_true, Bool.and_eq_true] at hbody
        obtain ⟨⟨hd, _⟩, _⟩ := hbody
        have hletter := lower_letter d hd
        refine isF_false_of_mem a d ?_ ?_ ?_ ?_
        · rw [hcs, hrr]
          simp
        · exact letter_not_dot d hletter
        · exact letter_not_dash d hletter
        · exact letter_not_digit d hletter

/-- The first item of a spec-valid item list satisfies the regex's
one-item requirement. -/
theorem itemsOk_head (d : Char) (t : List Char) (h : itemsOk (d :: t) = true) :
    flagItemOk (d :: t) = true := by
  rw [itemsOk] at h
  rw [Bool.and_eq_true, Bool.and_eq_true] at h
  obtain ⟨⟨hor, hnot⟩, _⟩ := h
  rw [flagItemOk, Bool.or_eq_true]
  rw [Bool.or_eq_true] at hor
  rcases hor with hl | hdash
  · exact Or.inl hl
  · right
    rw [Bool.and_eq_true]
    refine ⟨hdash, ?_⟩
    rw [Bool.not_eq_true'] at hnot ⊢
    rw [Bool.and_eq_false_iff] at hnot
    rcases hnot with h1 | h2
    · rw [hdash] at h1
      exact absurd h1 (by decide)
    · exact h2

/-- A spec flag-pattern token passes the code's `re.match(_USR_ARGS_REG, ·)`. -/
theorem specFlag_matchReg (a : String) (h : specFlagPattern a = true) :
    matchUsrArgsReg a = true := by
  unfold specFlagPattern at h
  unfold matchUsrArgsReg
  cases hcs : a.data with
  | nil =>
    rw [hcs] at h
    simp at h
  | cons c r =>
    rw [hcs] at h
    rw [Bool.and_eq_true] at h
    obtain ⟨hcd, hbody⟩ := h
    rw [Bool.and_eq_true]
    refine ⟨hcd, ?_⟩
    by_cases hr : headIsDash r = true
    · rw [if_pos hr] at hbody ⊢
      cases hdrop : r.drop 1 with
      | nil =>
        rw [hdrop] at hbody
        simp at hbody
      | cons d rest =>
        rw [hdrop] at hbody
        rw [Bool.and_eq_true, Bool.and_eq_true] at hbody
        obtain ⟨⟨hd, hne⟩, hitems⟩ := hbody
        rw [Bool.or_eq_true]
        left
        rw [flagBody, Bool.and_eq_true]
        refine ⟨hd, ?_⟩
        cases hrest : rest with
        | nil =>
          rw [hrest] at hne
          simp at hne
        | cons e t =>
          rw [hrest] at hitems
          exact itemsOk_head e t hitems
    · rw [if_neg hr] at hbody ⊢
      cases hrr : r with
      | nil =>
        rw [hrr] at hbody
        simp at hbody
      | cons d rest =>
        rw [hrr] at hbody
        rw [Bool.and_eq_true, Bool.and_eq_true] at hbody
        obtain ⟨⟨hd, hne⟩, hitems⟩ := hbody
        rw [flagBody, Bool.and_eq_true]
        refine ⟨hd, ?_⟩
        cases hrest : rest with
        | nil =>
          rw [hrest] at hne
          simp at hne
        | cons e t =>
          rw [hrest] at hitems
          exact itemsOk_head e t hitems

/-- Over grammar-conforming tokens the loop of `_validate_usr_args` ends in
one of the outcomes of `CitedOutcome`: success, a type-mismatch citing
tokens of the input, or the unknown-flag raise citing a token of the
input. -/
theorem vgo_grammar_outcomes (sch : Schema) (line : String) (toks : List String) :
    ∀ (rem : List String) (prev : Option String) (start opts : Nat)
      (stack : List Val) (kwargs : List (String × Val)),
      (∀ x ∈ rem, grammarOk x = true) → (∀ x ∈ rem, x ∈ toks) →
      (∀ p, prev = some p → p ∈ toks) →
      CitedOutcome toks (vgo sch line rem prev start opts stack kwargs) := by
  intro rem
  induction rem with
  | nil =>
    intro prev start opts stack kwargs _ _ _
    exact Or.inl ⟨opts, kwargs, by rw [vgo]⟩
  | cons a rest ih =>
    intro prev start opts stack kwargs hg hsub hprev
    have hga : grammarOk a = true := hg a (by simp)
    have hat : a ∈ toks := hsub a (by simp)
    have hgr : ∀ x ∈ rest, grammarOk x = true := fun x hx => hg x (List.mem_cons_of_mem a hx)
    have hsr : ∀ x ∈ rest, x ∈ toks := fun x hx => hsub x (List.mem_cons_of_mem a hx)
    have hprevA : ∀ p, some a = some p → p ∈ toks := fun p hp => by
      rw [← Option.some.inj hp]
      exact hat
    by_cases hval : (argIsFloatOrInt a || pyIsalpha a) = true
    · have hsome : ∃ v, parsedArgOf a = some v := by
        unfold parsedArgOf
        by_cases hf : argIsFloatOrInt a = true
        · rw [if_pos hf]
          have hsn : specNumeric a = true := by
            rw [grammarOk, Bool.or_eq_true, Bool.or_eq_true] at hga
            rcases hga with (hsn | hal) | h3
            · exact hsn
            · rw [pyIsalpha_not_isF a hal] at hf
              exact absurd hf (by decide)
            · rw [specFlag_not_isF a h3] at hf
              exact absurd hf (by decide)
          obtain ⟨q, hq⟩ := specNumeric_getFloat a hsn
          exact ⟨Val.num q, by rw [hq]; rfl⟩
        · rw [if_neg hf]
          exact ⟨Val.str a, rfl⟩
      obtain ⟨v, hv⟩ := hsome
      cases prev with
      | none =>
        rw [vgo, if_pos hval, hv]
        exact ih (some a) _ _ _ _ hgr hsr hprevA
      | some p =>
        rw [vgo, if_pos hval, hv]
        dsimp only
        by_cases hpc : (startsDashDash p || pyIsalpha p || argIsFloatOrInt p) = true
        · rw [if_pos hpc]
          exact ih (some a) _ _ _ _ hgr hsr hprevA
        · rw [if_neg hpc]
          have hpt : p ∈ toks := hprev p rfl
          cases hlf : lookupField sch (strDrop p 1) with
          | none =>
            exact Or.inr (Or.inr ⟨p, hpt, rfl⟩)
          | some fi =>
            dsimp only
            by_cases hann : fi.annot = Val.pytype v
            · rw [if_pos hann]
              exact ih (some a) _ _ _ _ hgr hsr hprevA
            · rw [if_neg hann]
              exact Or.inr (Or.inl ⟨p, a, fi.annot, opts, kwargs, hpt, hat, rfl⟩)
    · have hreg : matchUsrArgsReg a = true := by
        rw [grammarOk, Bool.or_eq_true, Bool.or_eq_true] at hga
        rcases hga with (hsn | hal) | h3
        · exfalso
          apply hval
          rw [specNumeric_isF a hsn]
          rfl
        · exfalso
          apply hval
          rw [hal, Bool.or_true]
        · exact specFlag_matchReg a h3
      rw [vgo, if_neg hval, if_pos hreg]
      exact ih (some a) _ _ _ _ hgr hsr hprevA

/-- On a fully successful run (error slot `none`), the returned `opts` is the
left fold of the per-token `packOpts` over all tokens. -/
theorem vgo_opts_fold (sch : Schema) (line : String) :
    ∀ (rem : List String) (prev : Option String) (start opts : Nat)
      (stack : List Val) (kwargs : List (String × Val)) (opts2 : Nat)
      (kwargs2 : List (String × Val)),
      vgo sch line rem prev start opts stack kwargs = .returned none opts2 kwargs2 →
      opts2 = rem.foldl (packOpts sch) opts := by
  intro rem
  induction rem with
  | nil =>
    intro prev start opts stack kwargs opts2 kwargs2 h
    rw [vgo] at h
    injection h with h1 h2 h3
    rw [List.foldl_nil, ← h2]
  | cons a rest ih =>
    intro prev start opts stack kwargs opts2 kwargs2 h
    rw [List.foldl_cons]
    rw [vgo] at h
    by_cases hval : (argIsFloatOrInt a || pyIsalpha a) = true
    · rw [if_pos hval] at h
      cases hv : parsedArgOf a with
      | none =>
        rw [hv] at h
        exact VResult.noConfusion h
      | some v =>
        rw [hv] at h
        cases prev with
        | none =>
          exact ih (some a) _ _ _ _ _ _ h
        | some p =>
          dsimp only at h
          by_cases hpc : (startsDashDash p || pyIsalpha p || argIsFloatOrInt p) = true
          · rw [if_pos hpc] at h
            exact ih (some a) _ _ _ _ _ _ h
          · rw [if_neg hpc] at h
            cases hlf : lookupField sch (strDrop p 1) with
            | none =>
              rw [hlf] at h
              exact VResult.noConfusion h
            | some fi =>
              rw [hlf] at h
              dsimp only at h
              by_cases hann : fi.annot = Val.pytype v
              · rw [if_pos hann] at h
                exact ih (some a) _ _ _ _ _ _ h
              · rw [if_neg hann] at h
                injection h with h1 h2 h3
                exact Option.noConfusion h1
    · rw [if_neg hval] at h
      by_cases hreg : matchUsrArgsReg a = true
      · rw [if_pos hreg] at h
        exact ih (some a) _ _ _ _ _ _ h
      · rw [if_neg hreg] at h
        injection h with h1 h2 h3
        exact Option.noConfusion h1

/-- A guard error branch never produces the fully successful triple. -/
theorem guardReturn_ne_ok (args : List String) (e0 : String)
    (mk : String → Nat → String → VErr) (opts : Nat) (kwargs : List (String × Val)) :
    guardReturn args e0 mk ≠ .returned none opts kwargs := by
  unfold guardReturn
  cases hpi : pyIndex args (removeFormattingFromArg e0) with
  | none =>
    intro h
    exact VResult.noConfusion h
  | some j =>
    intro h
    injection h with h1 h2 h3
    exact Option.noConfusion h1

/-- When every token passes the length and charset guards, validation is the
token loop. -/
theorem validate_guards_pass (sch : Schema) (args : List String)
    (h1 : ∀ x ∈ args, strLen x ≤ MAX_ARG_WRD_SZ)
    (h2 : ∀ x ∈ args, x.data.all isAsciiCh = true) :
    validateUsrArgs sch args = vgo sch (joinSpace args) args none 0 0 [] [] := by
  unfold validateUsrArgs
  have e1 : args.find? (fun a => decide (MAX_ARG_WRD_SZ < strLen a)) = none := by
    rw [List.find?_eq_none]
    intro x hx
    simp only [decide_eq_true_eq, not_lt]
    exact h1 x hx
  have e2 : args.find? (fun a => !(a.data.all isAsciiCh)) = none := by
    rw [List.find?_eq_none]
    intro x hx
    simp [h2 x hx]
  rw [e1]
  dsimp only
  rw [e2]

theorem foldl_packOpts_eq (sch : Schema)
    (hpt : ∀ o a, packOpts sch o a = o ||| specBoolContrib sch a) :
    ∀ (l : List String) (init : Nat),
      l.foldl (packOpts sch) init = l.foldl (fun o a => o ||| specBoolContrib sch a) init := by
  intro l
  induction l with
  | nil =>
    intro init
    rfl
  | cons a t ih =>
    intro init
    rw [List.foldl_cons, List.foldl_cons, hpt, ih]

/-! ### Theorems for the validator claims -/

/-- Counterexample to claim C4: both tokens of `-zzz 5` are at most 128
ASCII characters and match the flag/value grammar, yet validation raises an
uncaught `ValueError` (bot.py line 344) instead of returning a result:
the numeric token binds to the single-dash flag `-zzz`, whose name is not in
the schema. -/
theorem validator_raises_on_unknown_flag_cex :
    (∀ x ∈ (["-zzz", "5"] : List String),
        strLen x ≤ MAX_ARG_WRD_SZ ∧ x.data.all isAsciiCh = true ∧ grammarOk x = true) ∧
      validateUsrArgs StartArgs ["-zzz", "5"] =
        .raised "The supplied arg: -zzz was not found" := by
  constructor
  · decide
  · decide

/-- Claim C4 (amended): for every token sequence of at-most-128-character
ASCII tokens matching the flag/value grammar, validation terminates and
either returns (success, or a type-mismatch error citing a flag token and a
value token both present in the input — this error carries no offset), or
raises an exception citing a token present in the input, which happens
exactly when a value token binds to a single-dash flag not in the schema. -/
theorem validator_grammar_outcomes (sch : Schema) (args : List String)
    (h : ∀ x ∈ args,
      strLen x ≤ MAX_ARG_WRD_SZ ∧ x.data.all isAsciiCh = true ∧ grammarOk x = true) :
    CitedOutcome args (validateUsrArgs sch args) := by
  rw [validate_guards_pass sch args (fun x hx => (h x hx).1) (fun x hx => (h x hx).2.1)]
  exact vgo_grammar_outcomes sch (joinSpace args) args args none 0 0 [] []
    (fun x hx => (h x hx).2.2) (fun x hx => hx) (fun p hp => Option.noConfusion hp)

theorem validator_grammar_outcomes_witness :
    CitedOutcome ["--tmp"] (validateUsrArgs StartArgs ["--tmp"]) :=
  validator_grammar_outcomes StartArgs ["--tmp"] (by decide)

/-- Claim C8: on a fully successful validation against `StartArgs`, the
returned options bitmask is the bitwise OR of the per-token contributions of
the spec's packing rule: a double-dash token naming the boolean entry `tmp`
(bit-position 0) contributes exactly bit 0, and every other token — in
particular a double-dash token naming the non-boolean `alloc`, or an unknown
name — contributes no bits. -/
theorem double_dash_flag_sets_bit (args : List String) (opts : Nat)
    (kwargs : List (String × Val))
    (h : validateUsrArgs StartArgs args = .returned none opts kwargs) :
    opts = args.foldl (fun o a => o ||| specBoolContrib StartArgs a) 0 := by
  have hpt : ∀ (o : Nat) (a : String),
      packOpts StartArgs o a = o ||| specBoolContrib StartArgs a := by
    intro o a
    unfold packOpts specBoolContrib
    by_cases hd : startsDashDash a = true
    · rw [if_pos hd, if_pos hd]
      by_cases hA : ("alloc" : String) = strDrop a 2
      · simp [lookupField, StartArgs, ← hA, Nat.or_zero]
      · by_cases hT : ("tmp" : String) = strDrop a 2
        · simp [lookupField, StartArgs, hA, ← hT, Nat.or_zero]
        · simp [lookupField, StartArgs, hA, hT, Nat.or_zero]
    · rw [if_neg hd, if_neg hd]
      simp [Nat.or_zero]
  unfold validateUsrArgs at h
  cases hf1 : args.find? (fun a => decide (MAX_ARG_WRD_SZ < strLen a)) with
  | some e0 =>
    rw [hf1] at h
    exact absurd h (guardReturn_ne_ok args e0 VErr.tooLarge opts kwargs)
  | none =>
    rw [hf1] at h
    dsimp only at h
    cases hf2 : args.find? (fun a => !(a.data.all isAsciiCh)) with
    | some e0 =>
      rw [hf2] at h
      exact absurd h (guardReturn_ne_ok args e0 VErr.nonAscii opts kwargs)
    | none =>
      rw [hf2] at h
      rw [vgo_opts_fold StartArgs (joinSpace args) args none 0 0 [] [] opts kwargs h]
      exact foldl_packOpts_eq StartArgs hpt args 0

theorem double_dash_flag_sets_bit_witness :
    (1 : Nat) = ["--tmp"].foldl (fun o a => o ||| specBoolContrib StartArgs a) 0 :=
  double_dash_flag_sets_bit ["--tmp"] 1 [] (by decide)

/-- Claim C9: every token the classifier marks numeric parses to a Python
float (never an int), whatever its shape; consequently, binding a numeric
token to a schema flag whose declared type is integer always takes the
`annotation is type(parsed)` mismatch branch and returns the type-mismatch
error. -/
theorem numeric_token_float_int_flag_mismatch :
    (∀ (a : String) (v : Val), argIsFloatOrInt a = true → parsedArgOf a = some v →
        Val.pytype v = FType.float) ∧
      (∀ (sch : Schema) (p : String) (fi : FieldInfo) (a : String) (q : ℚ),
        lookupField sch (strDrop p 1) = some fi → fi.annot = FType.int →
        strLen p ≤ MAX_ARG_WRD_SZ → p.data.all isAsciiCh = true →
        argIsFloatOrInt p = false → pyIsalpha p = false →
        startsDashDash p = false → matchUsrArgsReg p = true →
        strLen a ≤ MAX_ARG_WRD_SZ → a.data.all isAsciiCh = true →
        argIsFloatOrInt a = true → getFloatFromArg a = some q →
        validateUsrArgs sch [p, a] =
          .returned (some (VErr.typeMismatch p a FType.int)) 0 []) := by
  constructor
  · intro a v hF hv
    unfold parsedArgOf at hv
    rw [if_pos hF] at hv
    cases hg : getFloatFromArg a with
    | none =>
      rw [hg] at hv
      exact Option.noConfusion hv
    | some q =>
      rw [hg] at hv
      injection hv with hv1
      rw [← hv1]
      rfl
  · intro sch p fi a q hlook hint hLp hAscp hFp hAp hDp hRp hLa hAsca hFa hq
    have e1 : ([p, a] : List String).find? (fun x => decide (MAX_ARG_WRD_SZ < strLen x)) = none := by
      rw [List.find?_eq_none]
      intro x hx
      simp only [List.mem_cons, List.not_mem_nil, or_false] at hx
      rcases hx with rfl | rfl
      · simp only [decide_eq_true_eq, not_lt]
        exact hLp
      · simp only [decide_eq_true_eq, not_lt]
        exact hLa
    have e2 : ([p, a] : List String).find? (fun x => !(x.data.all isAsciiCh)) = none := by
      rw [List.find?_eq_none]
      intro x hx
      simp only [List.mem_cons, List.not_mem_nil, or_false] at hx
      rcases hx with rfl | rfl
      · simp [hAscp]
      · simp [hAsca]
    unfold validateUsrArgs
    rw [e1]
    dsimp only
    rw [e2]
    dsimp only
    rw [vgo]
    rw [if_neg (by simp [hFp, hAp])]
    rw [if_pos hRp]
    have hpack : packOpts sch 0 p = 0 := by
      simp [packOpts, hDp]
    rw [hpack]
    rw [vgo]
    rw [if_pos (by rw [hFa, Bool.true_or])]
    have hparse : parsedArgOf a = some (Val.num q) := by
      unfold parsedArgOf
      rw [if_pos hFa, hq]
      rfl
    rw [hparse]
    dsimp only
    rw [if_neg (by simp [hDp, hAp, hFp])]
    rw [hlook]
    dsimp only
    rw [if_neg (by rw [hint]; exact fun hh => FType.noConfusion hh)]
    rw [hint]

theorem numeric_token_float_int_flag_mismatch_witness :
    Val.pytype (Val.num (floatVal ['5'])) = FType.float ∧
      validateUsrArgs IntSchema ["-alloc", "5"] =
        .returned (some (VErr.typeMismatch "-alloc" "5" FType.int)) 0 [] := by
  constructor
  · exact numeric_token_float_int_flag_mismatch.1 "5" (Val.num (floatVal ['5']))
      (by decide) (by rfl)
  · exact numeric_token_float_int_flag_mismatch.2 IntSchema "-alloc"
      ⟨FType.int, none, "-alloc"⟩ "5" (floatVal ['5']) (by decide) rfl
      (by decide) (by decide) (by decide) (by decide) (by decide) (by decide)
      (by decide) (by decide) (by decide) (by rfl)

end FulcrumBot
